import Mathlib

/-!
# Verification of the IEC 62056-21 protocol client (`IEC62056_21.py`)

Shallow embedding of the Python 2 source.  Bytes are modelled as `Nat`
(always < 256 in practice); a serial-channel read (`self.ser.read()`,
which returns at most one byte and may time out) is modelled as popping
one element from a script `List (Option Nat)`, where `none` means the
read timed out and returned the empty string.  An exhausted script is
read as `none` forever (every physical read eventually returns), so in
loops that re-poll on empty reads an exhausted script denotes
non-termination.

Python 2 semantics that the source relies on are modelled explicitly
where they matter and are called out in doc comments: indexing a
`bytearray` yields an `int`, comparing an `int` with a one-character
`str` is always `False`, and concatenating a `str` with a `bytearray`
raises `TypeError`.
-/

set_option maxHeartbeats 1000000

set_option maxRecDepth 8000

namespace IEC62056

/-- Decidable equality of `Except` results, so that concrete runs of the
embedded functions can be checked by `decide`. -/
instance {ε α : Type} [DecidableEq ε] [DecidableEq α] : DecidableEq (Except ε α) := fun x y =>
  match x, y with
  | .ok a, .ok b => if h : a = b then isTrue (by rw [h]) else isFalse (by simp [h])
  | .ok _, .error _ => isFalse (by simp)
  | .error _, .ok _ => isFalse (by simp)
  | .error a, .error b => if h : a = b then isTrue (by rw [h]) else isFalse (by simp [h])

/-- Exceptions that the Python code can raise, as observed by the caller.
`timeoutException` and `invalidMessage` are the two classes declared in the
source; the others are built-in Python exceptions escaping from slips in the
source (`TypeError` from `str + bytearray`, `decimal.InvalidOperation` from
`Decimal`, `IndexError` from `b[0]` on an empty read, `ValueError` from
`int(c, 16)`, `UnicodeDecodeError` from `.decode('ascii')`). -/
inductive PyErr where
  | timeoutException
  | invalidMessage
  | typeError
  | valueError
  | unicodeDecodeError
  | invalidOperation
  | indexError
deriving DecidableEq, Repr

/-- Turn a Lean string into the list of byte values of its characters
(all inputs used are ASCII). -/
def strBytes (s : String) : List Nat := s.toList.map Char.toNat

/-- One channel read: pop the next scripted result; an exhausted script
behaves like a timed-out read (`none`). -/
def chanRead : List (Option Nat) → Option Nat × List (Option Nat)
  | [] => (none, [])
  | r :: s => (r, s)

/-- The two-byte end-of-line marker `eom = '\r\n'` from `_read_dataline`. -/
def eomBytes : List Nat := [13, 10]

/-- Loop body of `_read_dataline` (source lines 195–218): read one byte at a
time; on a timed-out read exit the loop returning the accumulated buffer;
otherwise append the byte, update the rolling match counter `m`
(`if eom[m] == b: m += 1 else: m = 0` — note the counter resets to 0 on a
mismatch without re-examining the byte), and when `m` reaches 2 pop the two
marker bytes and return. -/
def read_dataline_aux : List Nat → Nat → List (Option Nat) → List Nat × List (Option Nat)
  | msg, _, [] => (msg, [])
  | msg, _, none :: s => (msg, s)
  | msg, m, some b :: s =>
    let msg' := msg ++ [b]
    let m' := if eomBytes.getD m 0 = b then m + 1 else 0
    if m' = 2 then (msg'.dropLast.dropLast, s)
    else read_dataline_aux msg' m' s

/-- `_read_dataline(msg)`: the seed buffer `msg` (the optional prefix byte)
is placed in the accumulator but never examined by the marker matcher, whose
counter starts at 0. -/
def read_dataline (msg : List Nat) (s : List (Option Nat)) : List Nat × List (Option Nat) :=
  read_dataline_aux msg 0 s

/-- Drain loop from `_read_identification_message` (source lines 103–107):
keep reading and appending bytes until a read returns nothing. -/
def drainAll : List Nat → List (Option Nat) → List Nat × List (Option Nat)
  | msg, [] => (msg, [])
  | msg, none :: s => (msg, s)
  | msg, some b :: s => drainAll (msg ++ [b]) s

/-- Python 2 semantics of `msg[5] == '\\'` in the source (lines 117 and 133):
indexing a `bytearray` yields an `int`, and in Python 2 an `int` compared
with a one-character `str` is unequal (no exception), so the comparison is
constantly false and the escape-character branch is unreachable. -/
def py2EqIntStr (_ : Nat) (_ : Char) : Bool := false

/-- `bytes.decode('ascii')`: succeeds iff every byte is < 128, else raises
`UnicodeDecodeError`. -/
def decodeAscii (bs : List Nat) : Except PyErr (List Char) :=
  if bs.all (fun b => b < 128) then .ok (bs.map Char.ofNat) else .error .unicodeDecodeError

/-- `int(c, 16)` on a single character: its hexadecimal value, or
`ValueError`. -/
def hexVal (c : Char) : Option Nat :=
  if '0' ≤ c ∧ c ≤ '9' then some (c.toNat - 48)
  else if 'a' ≤ c ∧ c ≤ 'f' then some (c.toNat - 87)
  else if 'A' ≤ c ∧ c ≤ 'F' then some (c.toNat - 55)
  else none

/-- The fixed baud-rate table `baudrateselection` (source lines 124–126). -/
def baudrateselection : List Nat :=
  [300, 600, 1200, 2400, 4800, 9600, 19200, 0, 0, 0, 600, 1200, 2400, 4800, 9600, 19200]

/-- The `IdentificationMessage` namedtuple. -/
structure IdentificationMessage where
  manufacturers_identification : List Char
  baudrate_identification : Char
  identification : List Char
  protocol_mode : Char
  baudrate : Nat
deriving DecidableEq, Repr

/-- `_read_identification_message` (source lines 96–142).  Returns the
outcome together with the remaining channel script (so that the drain on the
missing-start-character path is observable).  Faithful points:
* an empty line raises `TimeoutException`;
* a line not starting with `/` drains the channel, then the construction of
  the error message `"Missing start character, got: " + msg` concatenates a
  `str` with a `bytearray`, which in Python 2 raises `TypeError` before
  `InvalidMessageError` is ever constructed;
* a line shorter than 6 raises `InvalidMessageError` (its message is built
  with `.format`, which is fine);
* the `msg[5] == '\\'` tests are `py2EqIntStr` (constantly false);
* slices `msg[a:len(msg)-2]` become `(msg.drop a).take (msg.length - 2 - a)`;
* `protocol_mode` is assigned `'A'`, overwritten with `'B'` and then `'C'`
  (or `'E'`) by the two `if`s in source order;
* `int(baudrate_identification, 16)` raises `ValueError` on a non-hex
  character, otherwise indexes `baudrateselection`. -/
def read_identification_message (s : List (Option Nat)) :
    Except PyErr IdentificationMessage × List (Option Nat) :=
  let step1 := read_dataline [] s
  let msg := step1.1
  let s1 := step1.2
  if msg.length = 0 then (.error .timeoutException, s1)
  else if msg.getD 0 0 ≠ 47 then
    let drained := drainAll msg s1
    (.error .typeError, drained.2)
  else if msg.length < 6 then (.error .invalidMessage, s1)
  else
    match decodeAscii ((msg.drop 1).take 3) with
    | .error e => (.error e, s1)
    | .ok manuf =>
      let c := Char.ofNat (msg.getD 4 0)
      let identRes :=
        if py2EqIntStr (msg.getD 5 0) '\\' then
          if msg.length < 8 then Except.error PyErr.invalidMessage
          else decodeAscii ((msg.drop 7).take (msg.length - 2 - 7))
        else decodeAscii ((msg.drop 5).take (msg.length - 2 - 5))
      match identRes with
      | .error e => (.error e, s1)
      | .ok ident =>
        let pm0 := 'A'
        let pm1 := if 'A' < c ∧ c ≤ 'I' then 'B' else pm0
        let pm2 :=
          if '0' < c ∧ c ≤ '9' then
            if py2EqIntStr (msg.getD 5 0) '\\' then 'E' else 'C'
          else pm1
        match hexVal c with
        | none => (.error .valueError, s1)
        | some k => (.ok ⟨manuf, c, ident, pm2, baudrateselection.getD k 0⟩, s1)

/-! ## Dataset grammar

The source compiles (line 24)

`dataset_regex = re.compile("(?P<ID>[^\\(\\)/!]*)\\((?P<Value>\\d+(.\\d)+)(\\*(?P<Unit>[^\\(\\)/!]+))?\\)")`

and applies it with `re.match` (anchored at the start, not at the end).
Python `re` semantics for the constructs used: quantifiers are greedy with
backtracking (longer attempts tried first), the optional group tries the
present alternative first, `.` matches any character except a newline, and a
negated class `[^...]` matches every byte not listed (newline included).
Every repeated sub-pattern here consumes a fixed number of bytes per
iteration (classes one, `.\d` two), so each quantifier's possible matches
form a finite candidate list ordered longest-first and the whole match is a
first-success search over those candidates. -/

/-- Byte class `\d`. -/
def isDigitB (b : Nat) : Bool := 48 ≤ b ∧ b ≤ 57

/-- Byte class `[^\(\)/!]` shared by the ID and Unit groups:
everything except `(` `)` `/` `!`. -/
def isClsB (b : Nat) : Bool := ¬(b = 40 ∨ b = 41 ∨ b = 47 ∨ b = 33)

/-- Byte class of `.` (any byte except a newline). -/
def isDotB (b : Nat) : Bool := b ≠ 10

/-- All ways a greedy `p*` can match a front of `s`, longest first:
the prefixes of the maximal `p`-run. -/
def starSplits (p : Nat → Bool) (s : List Nat) : List (List Nat × List Nat) :=
  let pre := s.takeWhile p
  let suf := s.dropWhile p
  (List.range (pre.length + 1)).reverse.map
    (fun k => (pre.take k, pre.drop k ++ suf))

/-- All ways a greedy `p+` can match a front of `s`, longest first:
the nonempty prefixes of the maximal `p`-run. -/
def plusSplits (p : Nat → Bool) (s : List Nat) : List (List Nat × List Nat) :=
  let pre := s.takeWhile p
  let suf := s.dropWhile p
  (List.range pre.length).reverse.map
    (fun k => (pre.take (k + 1), pre.drop (k + 1) ++ suf))

/-- All ways the greedy `(.\d)+` can match a front of `s`, longest first:
each iteration consumes exactly two bytes, a `.`-byte followed by a digit. -/
def pairSplits : List Nat → List (List Nat × List Nat)
  | a :: b :: rest =>
    if isDotB a ∧ isDigitB b then
      (pairSplits rest).map (fun pr => (a :: b :: pr.1, pr.2)) ++ [([a, b], rest)]
    else []
  | _ => []

/-- After the Value group: the optional `(\*(?P<Unit>[^\(\)/!]+))?` (present
alternative first) followed by the literal `\)`; the pattern is not anchored
at the end, so bytes after `)` are ignored. -/
def matchTail (rest idg valg : List Nat) : Option (List Nat × List Nat × Option (List Nat)) :=
  (match rest with
   | 42 :: r2 =>
     (plusSplits isClsB r2).findSome? (fun ur : List Nat × List Nat =>
       match ur.2 with
       | 41 :: _ => some (idg, valg, some ur.1)
       | _ => none)
   | _ => none).orElse (fun _ =>
    match rest with
    | 41 :: _ => some (idg, valg, none)
    | _ => none)

/-- The Value group `\d+(.\d)+` followed by `matchTail`, with backtracking
over both quantifiers (longest candidates first). -/
def matchValue (afterParen idg : List Nat) : Option (List Nat × List Nat × Option (List Nat)) :=
  (plusSplits isDigitB afterParen).findSome? (fun dr =>
    (pairSplits dr.2).findSome? (fun tr =>
      matchTail tr.2 idg (dr.1 ++ tr.1)))

/-- Continuation after one candidate match of the ID group: the literal
`\(` followed by the Value group and the rest of the pattern. -/
def idContinue (ir : List Nat × List Nat) : Option (List Nat × List Nat × Option (List Nat)) :=
  match ir.2 with
  | 40 :: r1 => matchValue r1 ir.1
  | _ => none

/-- `dataset_regex.match(dataset)`: the ID group (longest candidate first),
then `idContinue`.  Returns the captured (ID, Value, Unit) groups, or `none`
when the regex does not match. -/
def datasetMatch (s : List Nat) : Option (List Nat × List Nat × Option (List Nat)) :=
  (starSplits isClsB s).findSome? idContinue

/-- Numeric value of a digit string (most significant first). -/
def digitsVal (ds : List Nat) : ℚ := ds.foldl (fun a b => 10 * a + ((b : ℚ) - 48)) 0

/-- Exponent tail of a decimal numeric string: `[sign] digits`. -/
def parseExpTail (bs : List Nat) : Option ℤ :=
  match bs with
  | 43 :: r => if r ≠ [] ∧ r.all isDigitB then some (Int.ofNat (digitsVal r).num.toNat) else none
  | 45 :: r => if r ≠ [] ∧ r.all isDigitB then some (-Int.ofNat (digitsVal r).num.toNat) else none
  | r => if r ≠ [] ∧ r.all isDigitB then some (Int.ofNat (digitsVal r).num.toNat) else none

/-- `Decimal(str(value))` on the strings the Value group can produce (they
always begin and end with a digit, so the sign, `NaN`/`Infinity` and
whitespace cases of the decimal grammar are unreachable and omitted): accepts
`digits [ '.' digits ] [ ('e'|'E') [sign] digits ]` and yields its exact
rational value; anything else raises `decimal.InvalidOperation`. -/
def pyDecimal (bs : List Nat) : Option ℚ :=
  let ipart := bs.takeWhile isDigitB
  let r1 := bs.dropWhile isDigitB
  if ipart = [] then none
  else
    match r1 with
    | [] => some (digitsVal ipart)
    | 46 :: r2 =>
      let fpart := r2.takeWhile isDigitB
      let r3 := r2.dropWhile isDigitB
      let base := digitsVal ipart + digitsVal fpart / 10 ^ fpart.length
      (match r3 with
       | [] => some base
       | 101 :: r4 => (parseExpTail r4).map (fun e => base * 10 ^ e)
       | 69 :: r4 => (parseExpTail r4).map (fun e => base * 10 ^ e)
       | _ => none)
    | 101 :: r4 => (parseExpTail r4).map (fun e => digitsVal ipart * 10 ^ e)
    | 69 :: r4 => (parseExpTail r4).map (fun e => digitsVal ipart * 10 ^ e)
    | _ => none

/-- The `DataSetMessage` namedtuple: identifier, exact decimal value,
optional unit. -/
structure DataSetMessage where
  id : List Nat
  value : ℚ
  unit : Option (List Nat)
deriving DecidableEq, Repr

/-- `_read_dataset_structure` (source lines 172–187).  When the regex does
not match, the source builds the error text with
`"Unable to parse dataset structure: " + dataset`; `dataset` is a
`bytearray`, and in Python 2 concatenating a `str` with a `bytearray` raises
`TypeError`, so that is what reaches the caller (never
`InvalidMessageError`).  When the regex matches but the Value group is not a
valid decimal numeric string, `Decimal` raises
`decimal.InvalidOperation`. -/
def read_dataset_structure (dataset : List Nat) : Except PyErr DataSetMessage :=
  match datasetMatch dataset with
  | none => .error .typeError
  | some g =>
    match pyDecimal g.2.1 with
    | none => .error .invalidOperation
    | some q => .ok ⟨g.1, q, g.2.2⟩

/-! ## Data block reader

`_read_data_message` (source lines 144–170) is a generator: read one byte;
on a timed-out read raise `TimeoutException`; on a byte other than STX
(0x02) raise `InvalidMessageError`; then loop reading one byte — a
timed-out read re-polls, the end-of-block byte 0x21 ends the loop, any
other byte seeds `_read_dataline` and the completed line is yielded — and
finally read the four trailer bytes.  The loop is fused with the line
reader into one state machine so that the recursion is structural on the
channel script (the line reader's rolling counter `m` becomes part of the
state). -/

/-- State of the fused block-reading loop: at a line boundary (about to
read the byte that is either 0x21 or the first byte of a line), or inside
`_read_dataline` with accumulator `msg` and rolling match counter `m`. -/
inductive LineMode where
  | boundary
  | inLine (msg : List Nat) (m : Nat)
deriving DecidableEq, Repr

/-- Trailer of the data block (source lines 162–170): read and discard two
bytes, read a third byte — `b[0]` on a timed-out (empty) read raises
`IndexError` — which must be ETX (0x03) or `InvalidMessageError` is raised,
then read the block-check character, which is only logged, never
verified. -/
def read_trailer (s : List (Option Nat)) : Except PyErr (List (Option Nat)) :=
  let p1 := chanRead s
  let p2 := chanRead p1.2
  let p3 := chanRead p2.2
  match p3.1 with
  | none => .error .indexError
  | some b =>
    if b ≠ 3 then .error .invalidMessage
    else
      let p4 := chanRead p3.2
      .ok p4.2

/-- The line loop of `_read_data_message` (source lines 154–160) fused with
`_read_dataline`, yielding the raw dataset lines.  `none` is the outcome on
an exhausted script: every further read times out, so the loop re-polls
forever (the generator never terminates and never raises).  Inside a line a
timed-out read ends `_read_dataline`, which returns the partial buffer as a
yielded line, after which the loop is back at a boundary. -/
def lines_loop : LineMode → List (Option Nat) → Option (List (List Nat) × List (Option Nat))
  | .boundary, [] => none
  | .boundary, none :: s => lines_loop .boundary s
  | .boundary, some b :: s =>
    if b = 33 then some ([], s)
    else lines_loop (.inLine [b] 0) s
  | .inLine _ _, [] => none
  | .inLine msg _, none :: s =>
    (lines_loop .boundary s).map (fun p => (msg :: p.1, p.2))
  | .inLine msg m, some b :: s =>
    let msg' := msg ++ [b]
    if eomBytes.getD m 0 = b then
      if m = 1 then
        (lines_loop .boundary s).map (fun p => (msg'.dropLast.dropLast :: p.1, p.2))
      else lines_loop (.inLine msg' (m + 1)) s
    else lines_loop (.inLine msg' 0) s

/-- Outcome of driving `_read_data_message` to completion. -/
inductive DMOut where
  | ok (lines : List (List Nat)) (rest : List (Option Nat))
  | err (e : PyErr)
  | hang
deriving DecidableEq, Repr

/-- `_read_data_message` driven to exhaustion: STX check, the line loop,
then the trailer.  `hang` is the outcome when the line loop re-polls
forever. -/
def read_data_message (s : List (Option Nat)) : DMOut :=
  match s with
  | [] => .err .timeoutException
  | none :: _ => .err .timeoutException
  | some b :: s1 =>
    if b ≠ 2 then .err .invalidMessage
    else
      match lines_loop .boundary s1 with
      | none => .hang
      | some (lns, s2) =>
        match read_trailer s2 with
        | .error e => .err e
        | .ok rest => .ok lns rest

/-- The end-of-block byte arrives at a line boundary: either the next
scripted read is 0x21, or it times out and re-polling reaches such a state,
or it starts a line whose remainder (as consumed by `_read_dataline`) leads
to such a state. -/
inductive EOFAtBoundary : List (Option Nat) → Prop
  | here (s : List (Option Nat)) : EOFAtBoundary (some 33 :: s)
  | repoll (s : List (Option Nat)) : EOFAtBoundary s → EOFAtBoundary (none :: s)
  | line (b : Nat) (s : List (Option Nat)) : b ≠ 33 →
      EOFAtBoundary (read_dataline [b] s).2 → EOFAtBoundary (some b :: s)

/-! ## The full read sequence -/

/-- Outcome of consuming `read()`'s generator to the end: all parsed
records and the remaining script, or the exception that escaped, or an
infinite re-poll. -/
inductive ReadOut where
  | ok (recs : List DataSetMessage) (rest : List (Option Nat))
  | err (e : PyErr)
  | hang
deriving DecidableEq, Repr

/-- Prepend a yielded record to the outcome of the rest of the loop. -/
def consRec (r : DataSetMessage) : ReadOut → ReadOut
  | .ok recs rest => .ok (r :: recs) rest
  | o => o

/-- The consumption loop `for dataset in self._read_data_message(): yield
self._read_dataset_structure(dataset)` (source lines 80–81) fused with the
block reader's line loop.  Generator laziness is preserved: each completed
raw line is parsed before the next channel read happens, so a parse failure
aborts before the rest of the block is consumed; the trailer runs when the
loop sees 0x21. -/
def records_loop : LineMode → List (Option Nat) → ReadOut
  | .boundary, [] => .hang
  | .boundary, none :: s => records_loop .boundary s
  | .boundary, some b :: s =>
    if b = 33 then
      match read_trailer s with
      | .error e => .err e
      | .ok rest => .ok [] rest
    else records_loop (.inLine [b] 0) s
  | .inLine msg _, [] =>
    (match read_dataset_structure msg with
     | .error e => .err e
     | .ok _ => .hang)
  | .inLine msg _, none :: s =>
    (match read_dataset_structure msg with
     | .error e => .err e
     | .ok r => consRec r (records_loop .boundary s))
  | .inLine msg m, some b :: s =>
    let msg' := msg ++ [b]
    if eomBytes.getD m 0 = b then
      if m = 1 then
        match read_dataset_structure (msg'.dropLast.dropLast) with
        | .error e => .err e
        | .ok r => consRec r (records_loop .boundary s)
      else records_loop (.inLine msg' (m + 1)) s
    else records_loop (.inLine msg' 0) s

/-- The data-block part of `read()`: STX check, then the fused
read-and-parse loop. -/
def read_records (s : List (Option Nat)) : ReadOut :=
  match s with
  | [] => .err .timeoutException
  | none :: _ => .err .timeoutException
  | some b :: s1 =>
    if b ≠ 2 then .err .invalidMessage
    else records_loop .boundary s1

/-! ## Timing controller -/

/-- Expected transmission duration as the source computes it (lines 60 and
85): `len(data) * 1.0 / (self.ser.baudrate / (self.ser.bytesize + 3))`.
Both operands of the inner division are Python 2 ints, so it is an integer
(floor) division; the outer division is float division, modelled here with
exact rationals. -/
def expected_delay (n baud bytesize : ℕ) : ℚ :=
  (n : ℚ) / ((baud / (bytesize + 3) : ℕ) : ℚ)

/-- Sign-on compensation (source lines 66–73): if the write returned in
less than the expected duration, flag the channel as non-blocking
(`ser_is_blocking = False`) and sleep the remainder; otherwise the flag
keeps its initial value `True` and there is no sleep.  Returns the flag and
the slept amount. -/
def signon_compensate (expected actual : ℚ) : Bool × ℚ :=
  if actual < expected then (false, expected - actual) else (true, 0)

/-- Sleep performed by `_write_blocking` (source lines 92–94): the residual
`expected - elapsed` when the channel is flagged non-blocking and the
residual is positive, else nothing. -/
def write_blocking_sleep (ser_is_blocking : Bool) (expected elapsed : ℚ) : ℚ :=
  if ser_is_blocking = false ∧ 0 < expected - elapsed then expected - elapsed else 0

/-! ## Session engine -/

/-- Observable session events: channel reconfiguration, writes, sleeps, and
the non-blocking flagging. -/
inductive SEv where
  | setBaud (n : ℕ)
  | write (data : List Nat)
  | sleep (q : ℚ)
  | flagNonBlocking
deriving DecidableEq, Repr

/-- The sign-on request `bytearray("/?!\r\n")`. -/
def msg_signon : List Nat := strBytes "/?!\r\n"

/-- The handshake acknowledgment `bytearray([0x06, '0',
identification_message.baudrate_identification, ord('0'), 0x0D, 0x0A])`
(source line 190; a Python 2 `bytearray` built from a mixed list of ints
and one-character strs). -/
def handshake_bytes (im : IdentificationMessage) : List Nat :=
  [6, 48, im.baudrate_identification.toNat, 48, 13, 10]

/-- Event trace of `read()` from the start through the baud-rate switch in
`_write_handshake` (source lines 54–78 and 189–193), parametrised by the
wall-clock durations of the two writes (`signonElapsed` for lines 62–66,
`ackElapsed` for lines 88–92).  Order of events: force 300 baud, write the
sign-on, flag-and-sleep if the write returned early, read and parse the
identification, write the handshake ack via `_write_blocking` (with its
conditional compensation sleep), sleep `min_reaction_time` (0.2 s), and
switch the channel to the negotiated baud rate. -/
def session_trace (signonElapsed ackElapsed : ℚ) (s : List (Option Nat)) :
    Except PyErr (List SEv × IdentificationMessage × List (Option Nat)) :=
  let e1 := expected_delay msg_signon.length 300 7
  let comp := signon_compensate e1 signonElapsed
  let pre : List SEv :=
    [.setBaud 300, .write msg_signon] ++
      (if signonElapsed < e1 then [.flagNonBlocking, .sleep (e1 - signonElapsed)] else [])
  match read_identification_message s with
  | (.error e, _) => .error e
  | (.ok im, s1) =>
    let e2 := expected_delay (handshake_bytes im).length 300 7
    .ok (pre ++ [.write (handshake_bytes im)] ++
          (if comp.1 = false ∧ 0 < e2 - ackElapsed then [.sleep (e2 - ackElapsed)] else []) ++
          [.sleep (1 / 5), .setBaud im.baudrate],
         im, s1)

/-! ## Synthetic data blocks (for the round-trip property) -/

/-- A well-formed dataset line, in separated form: identifier, integer and
fractional digit strings of the value, optional unit. -/
structure DSLine where
  id : List Nat
  ipart : List Nat
  fpart : List Nat
  unit : Option (List Nat)

/-- Well-formedness: the identifier and unit consist of bytes allowed by
the grammar's character class and contain no CR/LF; both digit parts are
nonempty digit strings; the fractional part has odd length; the unit, when
present, is nonempty and does not start with a digit. -/
def DSLine.valid (w : DSLine) : Prop :=
  (∀ b ∈ w.id, isClsB b ∧ b ≠ 13 ∧ b ≠ 10) ∧
  w.ipart ≠ [] ∧ (∀ b ∈ w.ipart, isDigitB b) ∧
  w.fpart ≠ [] ∧ (∀ b ∈ w.fpart, isDigitB b) ∧ Odd w.fpart.length ∧
  (∀ u ∈ w.unit, u ≠ [] ∧ (∀ b ∈ u, isClsB b ∧ b ≠ 13 ∧ b ≠ 10) ∧ ¬ isDigitB (u.headD 0))

instance (w : DSLine) : Decidable w.valid := by
  unfold DSLine.valid
  infer_instance

/-- The text of the line: `ID(IPART.FPART[*UNIT])`. -/
def DSLine.bytes (w : DSLine) : List Nat :=
  w.id ++ 40 :: (w.ipart ++ 46 :: w.fpart) ++
    (match w.unit with | none => [] | some u => 42 :: u) ++ [41]

/-- The record the line denotes, with the value as an exact rational. -/
def DSLine.record (w : DSLine) : DataSetMessage :=
  ⟨w.id, digitsVal w.ipart + digitsVal w.fpart / 10 ^ w.fpart.length, w.unit⟩

/-- The tail of a well-formed line after the Value group: the optional unit
part and the closing parenthesis. -/
def unitTail (unit : Option (List Nat)) : List Nat :=
  match unit with
  | none => [41]
  | some u => 42 :: (u ++ 41 :: [])

/-- Encode a data block: STX, each line followed by CR LF, the end-of-block
byte 0x21, two filler bytes (CR LF), ETX and the block-check character. -/
def encodeBlock (lns : List (List Nat)) (bcc : Nat) : List (Option Nat) :=
  some 2 :: (lns.map (fun l => l.map some ++ [some 13, some 10])).flatten ++
    [some 33, some 13, some 10, some 3, some bcc]

/-! ## Helper lemmas -/

/-- The line reader consumes a suffix of the script. -/
theorem read_dataline_aux_length : ∀ (s : List (Option Nat)) (msg : List Nat) (m : Nat),
    (read_dataline_aux msg m s).2.length ≤ s.length := by
  intro s
  induction s with
  | nil => intro msg m; simp [read_dataline_aux]
  | cons r s ih =>
    intro msg m
    match r with
    | none => simp [read_dataline_aux]
    | some b =>
      show (if (if eomBytes.getD m 0 = b then m + 1 else 0) = 2
            then (((msg ++ [b]).dropLast).dropLast, s)
            else read_dataline_aux (msg ++ [b]) (if eomBytes.getD m 0 = b then m + 1 else 0) s).2.length
           ≤ s.length + 1
      split
      · split
        · simp
        · exact le_trans (ih _ _) (Nat.le_succ _)
      · exact le_trans (ih _ _) (Nat.le_succ _)

/-- Reading CR-free bytes leaves the rolling matcher in state 0 and just
accumulates them. -/
theorem read_dataline_aux_clean (xs : List Nat) (hxs : ∀ x ∈ xs, x ≠ 13) :
    ∀ (msg : List Nat) (t : List (Option Nat)),
    read_dataline_aux msg 0 (xs.map some ++ t) = read_dataline_aux (msg ++ xs) 0 t := by
  induction xs with
  | nil => intro msg t; simp
  | cons x xs ih =>
    intro msg t
    have hx : x ≠ 13 := hxs x (List.mem_cons_self x xs)
    have hxs' : ∀ y ∈ xs, y ≠ 13 := fun y hy => hxs y (List.mem_cons_of_mem x hy)
    have hcond : ¬ (eomBytes.getD 0 0 = x) := by
      simp only [eomBytes, List.getD_cons_zero]
      exact fun h => hx h.symm
    show (if (if eomBytes.getD 0 0 = x then 0 + 1 else 0) = 2
          then (((msg ++ [x]).dropLast).dropLast, xs.map some ++ t)
          else read_dataline_aux (msg ++ [x]) (if eomBytes.getD 0 0 = x then 0 + 1 else 0)
                 (xs.map some ++ t))
        = read_dataline_aux (msg ++ x :: xs) 0 t
    rw [if_neg hcond]
    simp only [show ¬ ((0 : Nat) = 2) by decide, if_false]
    rw [ih hxs' (msg ++ [x]) t]
    simp

/-- A CR LF pair read in state 0 completes the line: the marker is stripped
and the rest of the script is untouched. -/
theorem read_dataline_aux_eom (msg : List Nat) (s : List (Option Nat)) :
    read_dataline_aux msg 0 (some 13 :: some 10 :: s) = (msg, s) := by
  simp [read_dataline_aux, eomBytes]

/-- A timed-out read in any matcher state returns the accumulated buffer. -/
theorem read_dataline_aux_timeout (msg : List Nat) (m : Nat) (s : List (Option Nat)) :
    read_dataline_aux msg m (none :: s) = (msg, s) := rfl

/-! ## Claims C3, C4, C5, C6, C8: concrete behaviours -/

/-- C3: the dataset line `"BAD[[["` does not match `dataset_regex`, and on
that path the source raises `TypeError` (from concatenating a `str` with the
`bytearray` while building the error text), not `InvalidMessageError`: the
claim that `InvalidMessageError` is the only failure kind reaching the
caller is wrong on the code, though it is clearly what the code intends. -/
theorem claim3_badline_typeerror :
    read_dataset_structure (strBytes "BAD[[[") = .error .typeError := by decide

/-- C4 counterexample: the rolling matcher resets to 0 on a mismatch without
re-examining the byte and never examines a seeded prefix byte, so a stream
whose accumulated bytes end in CR LF need not terminate the read with the
marker stripped: after CR CR LF the buffer is returned whole (by timeout on
script exhaustion), and a seeded CR followed by LF is likewise missed. -/
theorem claim4_counterexample :
    read_dataline [] [some 13, some 13, some 10] = ([13, 13, 10], []) ∧
    read_dataline [13] [some 10] = ([13, 10], []) := by decide

/-- C4 as amended: the Line Reader accumulates bytes one at a time and
terminates with the CR LF marker stripped whenever the CR is read from the
channel with no partial match pending — in particular on every line body
free of CR — and a timed-out read mid-line returns whatever was accumulated
without raising; but a CR CR LF subsequence or a CR arriving as the seeded
prefix byte is not recognised as a terminator. -/
theorem claim4_line_reader (msg xs : List Nat) (s : List (Option Nat))
    (hxs : ∀ x ∈ xs, x ≠ 13) :
    read_dataline msg (xs.map some ++ some 13 :: some 10 :: s) = (msg ++ xs, s) ∧
    read_dataline msg (xs.map some ++ none :: s) = (msg ++ xs, s) := by
  unfold read_dataline
  rw [read_dataline_aux_clean xs hxs, read_dataline_aux_clean xs hxs]
  exact ⟨read_dataline_aux_eom _ _, read_dataline_aux_timeout _ _ _⟩

/-- Witness for C4 at a concrete seeded buffer, line body and tail. -/
theorem claim4_witness :
    read_dataline [64] [some 65, some 66, some 13, some 10, some 9] = ([64, 65, 66], [some 9]) ∧
    read_dataline [64] [some 65, some 66, none, some 9] = ([64, 65, 66], [some 9]) := by
  have h := claim4_line_reader [64] [65, 66] [some 9] (by decide)
  simpa using h

/-- C5: an empty identification line raises `TimeoutException`; a line
starting with `/` but shorter than 6 bytes (here `"/AB1"`) raises
`InvalidMessageError`; a line not starting with `/` (here `"ABC123"`) first
drains the channel up to the next timed-out read — observe the remaining
script — but then raises `TypeError` (Python 2 `str + bytearray` in the
error-message construction), not the `InvalidMessageError` the code
intends. -/
theorem claim5_identification_errors :
    read_identification_message [some 13, some 10] = (.error .timeoutException, []) ∧
    read_identification_message ((strBytes "/AB1").map some ++ [some 13, some 10]) =
      (.error .invalidMessage, []) ∧
    read_identification_message
        ((strBytes "ABC123").map some ++ [some 13, some 10, some 88, none, some 99]) =
      (.error .typeError, [some 99]) := by
  refine ⟨by decide, by decide, by decide⟩

/-- C6 counterexample: on the trailer stream `[0x00, 0x00, 0x03, 0x63, 0x07]`
the claim predicts failure with `InvalidMessageError` (its fourth read,
after the two discards and the checksum-preceding byte, would see 0x63 ≠
ETX); the code instead checks the third byte and succeeds, consuming exactly
four bytes (the fourth, 0x63, being the unverified BCC). -/
theorem claim6_counterexample :
    read_trailer [some 0, some 0, some 3, some 99, some 7] = .ok [some 7] := by decide

/-- C6 as amended: after the end-of-block byte the reader discards two
delimiter bytes, reads one byte that must equal ETX 0x03 (failing with
`InvalidMessageError` otherwise), and then reads exactly one block-check
character it never verifies — four trailer bytes in total, completing
identically for every value (or even a timeout) of the BCC read. -/
theorem claim6_trailer (d1 d2 b : Nat) (bcc : Option Nat) (s : List (Option Nat)) :
    read_trailer (some d1 :: some d2 :: some 3 :: bcc :: s) = .ok s ∧
    (b ≠ 3 → read_trailer (some d1 :: some d2 :: some b :: s) = .error .invalidMessage) := by
  constructor
  · simp [read_trailer, chanRead]
  · intro hb
    simp [read_trailer, chanRead, hb]

/-- Witness for C6 at a concrete trailer. -/
theorem claim6_witness :
    read_trailer [some 13, some 10, some 3, some 77, some 1] = .ok [some 1] ∧
    read_trailer [some 13, some 10, some 5, some 1] = .error .invalidMessage := by
  have h := claim6_trailer 13 10 5 (some 77) [some 1]
  exact ⟨h.1, h.2 (by decide)⟩

/-- C8: the identification line `"/ABC1\"` has the escape character `\` at
byte 5 and total length 6 < 8, so the claim predicts `InvalidMessageError`;
but in Python 2 `msg[5]` is an `int` and `'\\'` a `str`, the comparison is
always false, the escape branch is unreachable, and the parser succeeds with
identification `""` and protocol mode `'C'`. -/
theorem claim8_escape_dead :
    read_identification_message ((strBytes "/ABC1\\").map some ++ [some 13, some 10]) =
      (.ok ⟨['A', 'B', 'C'], '1', [], 'C', 600⟩, []) := by decide

/-! ## Claim C2: protocol mode and baud-rate decoding -/

/-- C2: for every identification line the parser accepts, the baud-rate
identification character is a hexadecimal digit whose value indexes the
fixed baud-rate table (so the reserved ids 7–9 simply produce baud rate 0
without raising), and the protocol mode is `B` on `(A, I]`, `C` on
`(0, 9]`, and `A` otherwise. -/
theorem claim2_mode_and_baud (s : List (Option Nat)) (im : IdentificationMessage)
    (rest : List (Option Nat))
    (h : read_identification_message s = (.ok im, rest)) :
    (∃ k, hexVal im.baudrate_identification = some k ∧
          im.baudrate = baudrateselection.getD k 0) ∧
    ('A' < im.baudrate_identification ∧ im.baudrate_identification ≤ 'I' →
       im.protocol_mode = 'B') ∧
    ('0' < im.baudrate_identification ∧ im.baudrate_identification ≤ '9' →
       im.protocol_mode = 'C') ∧
    (¬('A' < im.baudrate_identification ∧ im.baudrate_identification ≤ 'I') ∧
     ¬('0' < im.baudrate_identification ∧ im.baudrate_identification ≤ '9') →
       im.protocol_mode = 'A') := by
  unfold read_identification_message at h
  simp only [py2EqIntStr, Bool.false_eq_true, if_false] at h
  split at h
  · simp at h
  split at h
  · simp at h
  split at h
  · simp at h
  split at h
  · simp at h
  split at h
  · simp at h
  split at h
  · simp at h
  rename_i manuf hmanuf ident hident k hk
  rw [Prod.mk.injEq] at h
  obtain ⟨h1, h2⟩ := h
  rw [Except.ok.injEq] at h1
  subst h1
  refine ⟨⟨k, hk, rfl⟩, ?_, ?_, ?_⟩
  · intro hr
    have hnd : ¬ ('0' < Char.ofNat (((read_dataline [] s).1).getD 4 0) ∧
        Char.ofNat (((read_dataline [] s).1).getD 4 0) ≤ '9') := by
      rintro ⟨h01, h91⟩
      exact absurd (lt_of_lt_of_le hr.1 h91) (by decide)
    simp only [if_neg hnd, if_pos hr]
  · intro hr
    simp only [if_pos hr]
  · rintro ⟨hB, hC⟩
    simp only [if_neg hB, if_neg hC]

/-- Witness for C2 at the concrete accepted line `"/ABC7xy"` — the reserved
baud id `'7'` decodes to baud rate 0 (table index 7) without any error. -/
theorem claim2_witness :
    read_identification_message ((strBytes "/ABC7xy").map some ++ [some 13, some 10]) =
      (.ok ⟨['A', 'B', 'C'], '7', [], 'C', 0⟩, []) ∧
    (∃ k, hexVal ('7' : Char) = some k ∧ (0 : Nat) = baudrateselection.getD k 0) ∧
    ('C' : Char) = 'C' ∧ (0 : Nat) = 0 := by
  have h : read_identification_message ((strBytes "/ABC7xy").map some ++ [some 13, some 10]) =
      (.ok ⟨['A', 'B', 'C'], '7', [], 'C', 0⟩, []) := by decide
  have h2 := claim2_mode_and_baud _ _ _ h
  exact ⟨h, h2.1, h2.2.2.1 (by decide), rfl⟩

/-! ## Claim C7: end-to-end session ordering -/

/-- C7 counterexample: the identification line `"/XYZ5ABC123"` has baud id
`'5'`, which satisfies `'0' < c ≤ '9'`, so the code decodes protocol mode
`'C'` — not the mode `'A'` the claim (following spec §8) asserts. -/
theorem claim7_counterexample :
    read_identification_message (((strBytes "/XYZ5ABC123").map some) ++ [some 13, some 10]) =
      (.ok ⟨['X', 'Y', 'Z'], '5', ['A', 'B', 'C', '1'], 'C', 9600⟩, []) ∧
    (⟨['X', 'Y', 'Z'], '5', ['A', 'B', 'C', '1'], 'C', 9600⟩ :
        IdentificationMessage).protocol_mode ≠ 'A' := by
  exact ⟨by decide, by decide⟩

/-- C7 as amended: in the `"/XYZ5ABC123"` scenario the decoded protocol
mode is `'C'` (not `'A'`) and the decoded baud rate is 9600; for every
timing of the two writes, the session trace contains exactly one switch to
9600 baud, and that switch is the last event, coming after the handshake
acknowledgment write `[ACK, '0', '5', '0', CR, LF]` and after the 0.2 s
minimum-reaction-time sleep that immediately precedes it. -/
theorem claim7_session_order (a ew : ℚ) :
    ∃ pre mid : List SEv,
      session_trace a ew (((strBytes "/XYZ5ABC123").map some) ++ [some 13, some 10]) =
        .ok (pre ++ SEv.write [6, 48, 53, 48, 13, 10] ::
               (mid ++ [SEv.sleep (1 / 5), SEv.setBaud 9600]),
             ⟨['X', 'Y', 'Z'], '5', ['A', 'B', 'C', '1'], 'C', 9600⟩, []) ∧
      (pre ++ SEv.write [6, 48, 53, 48, 13, 10] ::
         (mid ++ [SEv.sleep (1 / 5), SEv.setBaud 9600])).count (SEv.setBaud 9600) = 1 := by
  have h : read_identification_message (((strBytes "/XYZ5ABC123").map some) ++ [some 13, some 10]) =
      (.ok ⟨['X', 'Y', 'Z'], '5', ['A', 'B', 'C', '1'], 'C', 9600⟩, []) := by decide
  refine ⟨[SEv.setBaud 300, SEv.write msg_signon] ++
      (if a < expected_delay msg_signon.length 300 7
       then [SEv.flagNonBlocking, SEv.sleep (expected_delay msg_signon.length 300 7 - a)]
       else []),
    (if (signon_compensate (expected_delay msg_signon.length 300 7) a).1 = false ∧
        0 < expected_delay 6 300 7 - ew
     then [SEv.sleep (expected_delay 6 300 7 - ew)] else []), ?_, ?_⟩
  · unfold session_trace
    rw [h]
    simp [handshake_bytes]
  · by_cases h1 : a < expected_delay msg_signon.length 300 7 <;>
      by_cases h2 : 0 < expected_delay 6 300 7 - ew <;>
      simp [h1, h2, signon_compensate, List.count_append, List.count_cons]

/-! ## Claim C9: timing controller -/

/-- C9 counterexample: the source computes
`len(data) * 1.0 / (baudrate / (bytesize + 3))` with an integer inner
division, so for a 5-byte buffer at 300 baud with bytesize 8 (11 bits per
frame) it yields 5/27 s, not the claimed `5 * 11 / 300 = 11/60` s. -/
theorem claim9_counterexample :
    expected_delay 5 300 8 ≠ (5 * (8 + 3) : ℚ) / 300 := by
  norm_num [expected_delay]

/-- C9 as amended: the computed duration is
`byte_count / (baud_rate // bits_per_frame)` with an integer inner division;
it equals `byte_count * bits_per_frame / baud_rate` exactly when
`bits_per_frame` divides the baud rate — in particular a 5-byte buffer at
300 baud with 10 bits per frame gives exactly `5 * 10 / 300` seconds — and
when a write returns early the controller flags the channel non-blocking
and sleeps the remainder, and a non-blocking channel sleeps the positive
residual after every later write. -/
theorem claim9_timing :
    (∀ n baud bz : Nat, (bz + 3) ∣ baud → 0 < baud →
      expected_delay n baud bz = (n * (bz + 3) : ℚ) / (baud : ℚ)) ∧
    expected_delay 5 300 7 = (5 * 10 : ℚ) / 300 ∧
    (∀ e a : ℚ, a < e → signon_compensate e a = (false, e - a)) ∧
    (∀ e el : ℚ, 0 < e - el → write_blocking_sleep false e el = e - el) := by
  refine ⟨?_, by norm_num [expected_delay], ?_, ?_⟩
  · rintro n baud bz ⟨m, rfl⟩ hpos
    have hm : 0 < m := Nat.pos_of_ne_zero (by rintro rfl; simp at hpos)
    unfold expected_delay
    rw [Nat.mul_div_cancel_left _ (by omega)]
    have hmq : ((m : ℚ)) ≠ 0 := by exact_mod_cast hm.ne'
    push_cast
    field_simp
    ring
  · intro e a h
    simp [signon_compensate, h]
  · intro e el h
    simp [write_blocking_sleep, h]

/-- Witness for C9 at the concrete 5-byte, 300-baud, 10-bit frame and at a
concrete early-returning write. -/
theorem claim9_witness :
    expected_delay 5 300 7 = (5 * (7 + 3) : ℚ) / 300 ∧
    signon_compensate (1 / 6) (1 / 12) = (false, 1 / 6 - 1 / 12) ∧
    write_blocking_sleep false (1 / 6) (1 / 12) = 1 / 6 - 1 / 12 := by
  refine ⟨claim9_timing.1 5 300 7 (by norm_num) (by norm_num), ?_, ?_⟩
  · exact claim9_timing.2.2.1 (1 / 6) (1 / 12) (by norm_num)
  · exact claim9_timing.2.2.2 (1 / 6) (1 / 12) (by norm_num)

/-! ## Claim C10: block-reader termination -/

/-- The fused line loop in the in-line state is the standalone
`_read_dataline` run followed by the loop back at a boundary, with the
completed line consed onto whatever the rest of the loop yields. -/
theorem lines_loop_inLine (s : List (Option Nat)) : ∀ (msg : List Nat) (m : Nat),
    lines_loop (.inLine msg m) s =
      (lines_loop .boundary (read_dataline_aux msg m s).2).map
        (fun p => ((read_dataline_aux msg m s).1 :: p.1, p.2)) := by
  induction s with
  | nil => intro msg m; simp [lines_loop, read_dataline_aux]
  | cons r s ih =>
    intro msg m
    match r with
    | none => simp [lines_loop, read_dataline_aux]
    | some b =>
      by_cases hc : eomBytes[m]?.getD 0 = b
      · by_cases hm : m = 1
        · subst hm
          simp [lines_loop, read_dataline_aux, hc]
        · have h2 : ¬ (m + 1 = 2) := by omega
          simp [lines_loop, read_dataline_aux, hc, hm, h2, ih]
      · simp [lines_loop, read_dataline_aux, hc, ih]

/-- If the line loop completes, the end-of-block byte was observed at a
line boundary (strong induction on the script length). -/
theorem lines_loop_isSome_to_eof : ∀ (n : Nat) (s : List (Option Nat)), s.length ≤ n →
    (lines_loop .boundary s).isSome = true → EOFAtBoundary s := by
  intro n
  induction n with
  | zero =>
    intro s hs h
    match s with
    | [] => simp [lines_loop] at h
    | _ :: _ => simp at hs
  | succ n ih =>
    intro s hs h
    match s with
    | [] => simp [lines_loop] at h
    | none :: s =>
      exact .repoll s (ih s (by simpa using Nat.le_of_succ_le_succ hs)
        (by simpa [lines_loop] using h))
    | some b :: s =>
      by_cases hb : b = 33
      · subst hb; exact .here s
      · have h' : (lines_loop (.inLine [b] 0) s).isSome = true := by
          simpa [lines_loop, hb] using h
        rw [lines_loop_inLine] at h'
        have h'' : (lines_loop .boundary (read_dataline_aux [b] 0 s).2).isSome = true := by
          simpa using h'
        have hlen : (read_dataline_aux [b] 0 s).2.length ≤ n := by
          have := read_dataline_aux_length s [b] 0
          simp at hs
          omega
        exact .line b s hb (ih _ hlen h'')

/-- Conversely, when the end-of-block byte arrives at a line boundary the
loop completes. -/
theorem eof_to_lines_loop_isSome (s : List (Option Nat)) (h : EOFAtBoundary s) :
    (lines_loop .boundary s).isSome = true := by
  induction h with
  | here s => simp [lines_loop]
  | repoll s _ ih => simpa [lines_loop] using ih
  | line b s hb _ ih =>
    have : lines_loop LineMode.boundary (some b :: s) = lines_loop (.inLine [b] 0) s := by
      simp [lines_loop, hb]
    rw [this, lines_loop_inLine]
    simpa using ih

/-- The number of yielded lines is bounded by the script length. -/
theorem lines_loop_bound : ∀ (n : Nat) (s : List (Option Nat)), s.length ≤ n →
    ∀ lns rest, lines_loop .boundary s = some (lns, rest) → lns.length ≤ s.length := by
  intro n
  induction n with
  | zero =>
    intro s hs lns rest h
    match s with
    | [] => simp [lines_loop] at h
    | _ :: _ => simp at hs
  | succ n ih =>
    intro s hs lns rest h
    match s with
    | [] => simp [lines_loop] at h
    | none :: s =>
      have := ih s (by simp at hs; omega) lns rest (by simpa [lines_loop] using h)
      simp
      omega
    | some b :: s =>
      by_cases hb : b = 33
      · subst hb
        have : lns = [] := by
          simp [lines_loop] at h
          exact h.1
        simp [this]
      · have h' : lines_loop (.inLine [b] 0) s = some (lns, rest) := by
          simpa [lines_loop, hb] using h
        rw [lines_loop_inLine] at h'
        match hb2 : lines_loop LineMode.boundary (read_dataline_aux [b] 0 s).2 with
        | none => rw [hb2] at h'; simp at h'
        | some p =>
          rw [hb2] at h'
          simp at h'
          have hlen2 : (read_dataline_aux [b] 0 s).2.length ≤ n := by
            have := read_dataline_aux_length s [b] 0
            simp at hs
            omega
          have hp := ih _ hlen2 p.1 p.2 (by simpa using hb2)
          have : lns = (read_dataline_aux [b] 0 s).1 :: p.1 := by
            rw [← h'.1]
          rw [this]
          simp
          have := read_dataline_aux_length s [b] 0
          omega

/-- The trailer never raises `TimeoutException` (its possible failures are
`IndexError` and `InvalidMessageError`). -/
theorem read_trailer_no_timeout (s : List (Option Nat)) :
    read_trailer s ≠ .error .timeoutException := by
  rcases h3 : (chanRead (chanRead (chanRead s).2).2).1 with _ | b
  · simp [read_trailer, h3]
  · by_cases hb : b = 3 <;> simp [read_trailer, h3, hb]

/-- C10: in the line-or-end-of-block state an empty channel read re-polls
(the loop on the remaining script is unchanged); the loop terminates
exactly when the end-of-block byte 0x21 is observed at a line boundary;
the sequence of yielded raw lines is finite, bounded by the script length;
and after the STX byte is consumed the block read never raises
`TimeoutException`. -/
theorem claim10_block_termination (s : List (Option Nat)) :
    lines_loop .boundary (none :: s) = lines_loop .boundary s ∧
    ((lines_loop .boundary s).isSome = true ↔ EOFAtBoundary s) ∧
    (∀ lns rest, lines_loop .boundary s = some (lns, rest) → lns.length ≤ s.length) ∧
    read_data_message (some 2 :: s) ≠ .err .timeoutException := by
  refine ⟨rfl, ⟨lines_loop_isSome_to_eof s.length s le_rfl, eof_to_lines_loop_isSome s⟩,
    lines_loop_bound s.length s le_rfl, ?_⟩
  show (if (2 : Nat) ≠ 2 then DMOut.err .invalidMessage
        else match lines_loop .boundary s with
             | none => DMOut.hang
             | some (lns, s2) =>
               match read_trailer s2 with
               | .error e => DMOut.err e
               | .ok rest => DMOut.ok lns rest) ≠ DMOut.err .timeoutException
  rw [if_neg (by omega)]
  match hl : lines_loop .boundary s with
  | none => simp
  | some p =>
    rcases ht : read_trailer p.2 with e | rest
    · have hne : e ≠ PyErr.timeoutException := fun he =>
        read_trailer_no_timeout p.2 (by rw [ht, he])
      simp [ht]
      exact hne
    · simp [ht]


/-- Witness for C10: on the one-read script delivering 0x21 the iff and the
bound instantiate concretely. -/
theorem claim10_witness :
    EOFAtBoundary [some 33] ∧ ([] : List (List Nat)).length ≤ ([some 33] : List (Option Nat)).length :=
  ⟨(claim10_block_termination [some 33]).2.1.mp (by decide),
   (claim10_block_termination [some 33]).2.2.1 [] [] (by decide)⟩

/-! ## Claim C1: round-trip of synthetic data blocks -/

/-- A run of `p`-bytes followed by a non-`p` byte splits `takeWhile` and
`dropWhile` exactly there. -/
theorem takeWhile_all_append (p : Nat → Bool) (pre : List Nat) (c : Nat) (rest : List Nat)
    (hpre : ∀ b ∈ pre, p b = true) (hc : p c = false) :
    (pre ++ c :: rest).takeWhile p = pre ∧ (pre ++ c :: rest).dropWhile p = c :: rest := by
  induction pre with
  | nil => simp [List.takeWhile_cons, List.dropWhile_cons, hc]
  | cons a t ih =>
    have ha : p a = true := hpre a (List.mem_cons_self a t)
    have ih' := ih (fun b hb => hpre b (List.mem_cons_of_mem a hb))
    simp [List.takeWhile_cons, List.dropWhile_cons, ha, ih'.1, ih'.2]

/-- The longest-first candidate list of a greedy star starts with the
maximal run. -/
theorem starSplits_first (p : Nat → Bool) (pre : List Nat) (c : Nat) (rest : List Nat)
    (hpre : ∀ b ∈ pre, p b = true) (hc : p c = false) :
    ∃ tl, starSplits p (pre ++ c :: rest) = (pre, c :: rest) :: tl := by
  have h := takeWhile_all_append p pre c rest hpre hc
  simp only [starSplits]
  rw [h.1, h.2, List.range_succ, List.reverse_append]
  simp only [List.reverse_cons, List.reverse_nil, List.nil_append, List.map_cons,
    List.take_length, List.drop_length, List.singleton_append]
  exact ⟨_, rfl⟩

/-- The longest-first candidate list of a greedy plus starts with the
(nonempty) maximal run. -/
theorem plusSplits_first (p : Nat → Bool) (pre : List Nat) (c : Nat) (rest : List Nat)
    (hne : pre ≠ []) (hpre : ∀ b ∈ pre, p b = true) (hc : p c = false) :
    ∃ tl, plusSplits p (pre ++ c :: rest) = (pre, c :: rest) :: tl := by
  have h := takeWhile_all_append p pre c rest hpre hc
  simp only [plusSplits]
  rw [h.1, h.2]
  obtain ⟨n, hn⟩ : ∃ n, pre.length = n + 1 := by
    cases pre with
    | nil => exact absurd rfl hne
    | cons a t => exact ⟨t.length, rfl⟩
  rw [hn, List.range_succ, List.reverse_append]
  simp only [List.reverse_cons, List.reverse_nil, List.nil_append, List.cons_append,
    List.map_cons, List.singleton_append]
  rw [← hn, List.take_length, List.drop_length]
  simp only [List.nil_append]
  exact ⟨_, rfl⟩

/-- Shape invariant of the text the `(.\d)+` group consumes in a well-formed
value: alternating `.`-class bytes and digits, two at a time. -/
inductive PairsOk : List Nat → Prop
  | nil : PairsOk []
  | cons {a b : Nat} {t : List Nat} : isDotB a = true → isDigitB b = true →
      PairsOk t → PairsOk (a :: b :: t)

/-- When the text starts with well-shaped pairs and the remainder admits no
pair, the longest-first candidate list of `(.\d)+` starts with exactly those
pairs. -/
theorem pairSplits_first {w : List Nat} (hw : PairsOk w) (hne : w ≠ []) :
    ∀ rest, pairSplits rest = [] →
    ∃ tl, pairSplits (w ++ rest) = (w, rest) :: tl := by
  induction hw with
  | nil => exact absurd rfl hne
  | @cons a b t ha hb ht ih =>
    intro rest hrest
    by_cases htn : t = []
    · subst htn
      refine ⟨[], ?_⟩
      simp [pairSplits, ha, hb, hrest]
    · obtain ⟨tl', htl'⟩ := ih htn rest hrest
      have hstep : (a :: b :: t) ++ rest = a :: b :: (t ++ rest) := by simp
      rw [hstep]
      simp only [pairSplits, ha, hb, and_self, if_true, reduceIte]
      rw [htl']
      simp only [List.map_cons, List.cons_append]
      exact ⟨_, rfl⟩

/-- An even-length digit string is a sequence of well-shaped pairs. -/
theorem pairsOk_even_digits : ∀ (n : Nat) (G : List Nat), G.length ≤ n →
    (∀ b ∈ G, isDigitB b = true) → G.length % 2 = 0 → PairsOk G := by
  intro n
  induction n with
  | zero =>
    intro G hlen _ _
    match G with
    | [] => exact .nil
    | _ :: _ => simp at hlen
  | succ n ih =>
    intro G hlen hd hev
    match G with
    | [] => exact .nil
    | [x] => simp at hev
    | a :: b :: t =>
      have hda : isDigitB a = true := hd a (by simp)
      have hdb : isDigitB b = true := hd b (by simp)
      have hdota : isDotB a = true := by
        simp only [isDigitB, Bool.and_eq_true, decide_eq_true_eq] at hda
        simp only [isDotB, decide_eq_true_eq]
        omega
      refine .cons hdota hdb (ih t ?_ (fun x hx => hd x (by simp [hx])) ?_)
      · simp at hlen; omega
      · simp at hev ⊢; omega

/-- With no unit part the optional group is skipped and the closing
parenthesis matches. -/
theorem matchTail_noUnit (junk idg valg : List Nat) :
    matchTail (41 :: junk) idg valg = some (idg, valg, none) := rfl

/-- Reduction of `matchTail` on a `*` head. -/
theorem matchTail_cons42 (r idg valg : List Nat) :
    matchTail (42 :: r) idg valg =
      ((plusSplits isClsB r).findSome? (fun ur : List Nat × List Nat =>
         match ur.2 with
         | 41 :: _ => some (idg, valg, some ur.1)
         | _ => none)).orElse (fun _ => none) := rfl

/-- A nonempty class-only unit is captured greedily and the closing
parenthesis matches. -/
theorem matchTail_unit (u junk idg valg : List Nat) (hne : u ≠ [])
    (hu : ∀ b ∈ u, isClsB b = true) :
    matchTail (42 :: (u ++ 41 :: junk)) idg valg = some (idg, valg, some u) := by
  obtain ⟨tl, htl⟩ := plusSplits_first isClsB u 41 junk hne hu (by simp [isClsB])
  rw [matchTail_cons42, htl, List.findSome?_cons]
  rfl

/-- `takeWhile`/`dropWhile` on a run that satisfies `p` throughout. -/
theorem takeWhile_all (p : Nat → Bool) (l : List Nat) (hl : ∀ b ∈ l, p b = true) :
    l.takeWhile p = l ∧ l.dropWhile p = [] := by
  induction l with
  | nil => simp
  | cons a t ih =>
    have ha : p a = true := hl a (List.mem_cons_self a t)
    have ih' := ih (fun b hb => hl b (List.mem_cons_of_mem a hb))
    simp [List.takeWhile_cons, List.dropWhile_cons, ha, ih'.1, ih'.2]

/-- On a well-formed value the Value group captures exactly
`IPART.FPART`. -/
theorem matchValue_wf (ipart fpart tailU idg : List Nat)
    (r : List Nat × List Nat × Option (List Nat))
    (hi : ipart ≠ []) (hid : ∀ b ∈ ipart, isDigitB b = true)
    (hf : fpart ≠ []) (hfd : ∀ b ∈ fpart, isDigitB b = true)
    (hodd : fpart.length % 2 = 1)
    (htail : pairSplits tailU = [])
    (hres : matchTail tailU idg (ipart ++ 46 :: fpart) = some r) :
    matchValue (ipart ++ 46 :: (fpart ++ tailU)) idg = some r := by
  obtain ⟨tl1, htl1⟩ :=
    plusSplits_first isDigitB ipart 46 (fpart ++ tailU) hi hid (by simp [isDigitB])
  obtain ⟨f1, G, rfl⟩ : ∃ f1 G, fpart = f1 :: G := by
    cases fpart with
    | nil => exact absurd rfl hf
    | cons a t => exact ⟨a, t, rfl⟩
  have hpair : PairsOk (46 :: f1 :: G) := by
    refine .cons (by simp [isDotB]) (hfd f1 (by simp)) ?_
    refine pairsOk_even_digits G.length G le_rfl (fun x hx => hfd x (by simp [hx])) ?_
    simp at hodd
    omega
  obtain ⟨tl2, htl2⟩ := pairSplits_first hpair (by simp) tailU htail
  unfold matchValue
  rw [htl1, List.findSome?_cons]
  rw [show pairSplits (46 :: ((f1 :: G) ++ tailU)) = (46 :: f1 :: G, tailU) :: tl2 from htl2]
  rw [List.findSome?_cons]
  rw [show matchTail tailU idg (ipart ++ (46 :: f1 :: G)) = some r from hres]

/-- Canonical association of the bytes of a dataset line. -/
theorem dsline_bytes_canon (w : DSLine) :
    w.bytes = w.id ++ 40 :: (w.ipart ++ 46 :: (w.fpart ++ unitTail w.unit)) := by
  unfold DSLine.bytes unitTail
  cases w.unit with
  | none => simp
  | some u => simp

/-- The tail after the value admits no `(.\d)` pair (the closing
parenthesis alone cannot form one, and a unit must not start with a
digit). -/
theorem pairSplits_unitTail (unit : Option (List Nat))
    (hu : ∀ u ∈ unit, u ≠ [] ∧ ¬ isDigitB (u.headD 0) = true) :
    pairSplits (unitTail unit) = [] := by
  cases unit with
  | none => rfl
  | some u =>
    obtain ⟨hne, hhd⟩ := hu u rfl
    obtain ⟨u1, u', rfl⟩ : ∃ u1 u', u = u1 :: u' := by
      cases u with
      | nil => exact absurd rfl hne
      | cons a t => exact ⟨a, t, rfl⟩
    simp only [unitTail, List.cons_append]
    simp only [pairSplits]
    rw [if_neg]
    simp only [List.headD_cons] at hhd
    simp [hhd]

/-- `dataset_regex` matches a well-formed line with the expected three
groups. -/
theorem datasetMatch_wf (w : DSLine) (hw : w.valid) :
    datasetMatch w.bytes = some (w.id, w.ipart ++ 46 :: w.fpart, w.unit) := by
  obtain ⟨hid, hi, hip, hf, hfp, hodd, hu⟩ := hw
  obtain ⟨tl0, htl0⟩ := starSplits_first isClsB w.id 40
    (w.ipart ++ 46 :: (w.fpart ++ unitTail w.unit))
    (fun b hb => (hid b hb).1) (by simp [isClsB])
  have hmt : matchTail (unitTail w.unit) w.id (w.ipart ++ 46 :: w.fpart) =
      some (w.id, w.ipart ++ 46 :: w.fpart, w.unit) := by
    cases hu2 : w.unit with
    | none => exact matchTail_noUnit [] w.id (w.ipart ++ 46 :: w.fpart)
    | some u =>
      have := hu u (by rw [hu2]; rfl)
      exact matchTail_unit u [] w.id (w.ipart ++ 46 :: w.fpart) this.1
        (fun b hb => (this.2.1 b hb).1)
  have hodd' : w.fpart.length % 2 = 1 := Nat.odd_iff.mp hodd
  have hmv := matchValue_wf w.ipart w.fpart (unitTail w.unit) w.id
    (w.id, w.ipart ++ 46 :: w.fpart, w.unit) hi hip hf hfp hodd'
    (pairSplits_unitTail w.unit (fun u hu3 => ⟨(hu u hu3).1, (hu u hu3).2.2⟩))
    hmt
  have hic : idContinue (w.id, 40 :: (w.ipart ++ 46 :: (w.fpart ++ unitTail w.unit))) =
      some (w.id, w.ipart ++ 46 :: w.fpart, w.unit) := hmv
  unfold datasetMatch
  rw [dsline_bytes_canon w, htl0, List.findSome?_cons, hic]

/-- `Decimal` on `IPART.FPART` yields the exact rational value. -/
theorem pyDecimal_wf (ipart fpart : List Nat) (hi : ipart ≠ [])
    (hid : ∀ b ∈ ipart, isDigitB b = true) (hfd : ∀ b ∈ fpart, isDigitB b = true) :
    pyDecimal (ipart ++ 46 :: fpart) =
      some (digitsVal ipart + digitsVal fpart / 10 ^ fpart.length) := by
  have h := takeWhile_all_append isDigitB ipart 46 fpart hid (by simp [isDigitB])
  have hf := takeWhile_all isDigitB fpart hfd
  simp only [pyDecimal, h.1, h.2, hf.1, hf.2]
  rw [if_neg hi]

/-- The Dataset Parser decodes a well-formed line into its record with the
value as an exact rational. -/
theorem read_dataset_structure_wf (w : DSLine) (hw : w.valid) :
    read_dataset_structure w.bytes = .ok w.record := by
  have hm := datasetMatch_wf w hw
  obtain ⟨hid, hi, hip, hf, hfp, hodd, hu⟩ := hw
  have hp := pyDecimal_wf w.ipart w.fpart hi hip hfp
  unfold read_dataset_structure
  rw [hm]
  simp only [hp, DSLine.record]

/-- The fused read-and-parse loop in the in-line state is the standalone
`_read_dataline` run, the parse of the completed buffer, and the loop back
at a boundary. -/
theorem records_loop_inLine (s : List (Option Nat)) : ∀ (msg : List Nat) (m : Nat),
    records_loop (.inLine msg m) s =
      (match read_dataset_structure (read_dataline_aux msg m s).1 with
       | .error e => .err e
       | .ok r => consRec r (records_loop .boundary (read_dataline_aux msg m s).2)) := by
  induction s with
  | nil =>
    intro msg m
    simp only [records_loop, read_dataline_aux]
    cases read_dataset_structure msg with
    | error e => rfl
    | ok r => simp [records_loop, consRec]
  | cons r s ih =>
    intro msg m
    match r with
    | none => simp [records_loop, read_dataline_aux]
    | some b =>
      by_cases hc : eomBytes[m]?.getD 0 = b
      · by_cases hm : m = 1
        · subst hm
          simp [records_loop, read_dataline_aux, hc]
        · have h2 : ¬ (m + 1 = 2) := by omega
          simp [records_loop, read_dataline_aux, hc, hm, h2, ih]
      · simp [records_loop, read_dataline_aux, hc, ih]

/-- Bytes of the ID/Unit class are never the end-of-block byte. -/
theorem isClsB_ne (b : Nat) (hb : isClsB b = true) : b ≠ 33 := by
  simp only [isClsB, decide_eq_true_eq] at hb
  omega

/-- No byte of a well-formed line is CR or the end-of-block byte. -/
theorem dsline_bytes_ne (w : DSLine) (hw : w.valid) :
    ∀ x ∈ w.bytes, x ≠ 13 ∧ x ≠ 33 := by
  obtain ⟨hid, hi, hip, hf, hfp, hodd, hu⟩ := hw
  intro x hx
  rw [dsline_bytes_canon] at hx
  simp only [List.mem_append, List.mem_cons] at hx
  rcases hx with hx | hx | hx
  · exact ⟨(hid x hx).2.1, isClsB_ne x (hid x hx).1⟩
  · subst hx; omega
  · rcases hx with hx | hx
    · have := hip x hx
      simp only [isDigitB, Bool.and_eq_true, decide_eq_true_eq] at this
      omega
    · rcases hx with hx | hx
      · subst hx; omega
      · rcases hx with hx | hx
        · have := hfp x hx
          simp only [isDigitB, Bool.and_eq_true, decide_eq_true_eq] at this
          omega
        · cases hunit : w.unit with
          | none =>
            rw [hunit] at hx
            simp only [unitTail, List.mem_singleton] at hx
            subst hx; omega
          | some u =>
            rw [hunit] at hx
            simp only [unitTail, List.mem_cons, List.mem_append,
              List.mem_singleton] at hx
            rcases hx with hx | hx | hx
            · subst hx; omega
            · have := (hu u (by rw [hunit]; rfl)).2.1 x hx
              exact ⟨this.2.1, isClsB_ne x this.1⟩
            · rcases hx with hx | hx
              · subst hx; omega
              · simp at hx

/-- A well-formed line is nonempty. -/
theorem dsline_bytes_cons (w : DSLine) : ∃ hd tl, w.bytes = hd :: tl := by
  rw [dsline_bytes_canon]
  cases hid : w.id with
  | nil => exact ⟨40, _, rfl⟩
  | cons a t => exact ⟨a, _, rfl⟩

/-- Driving the read-and-parse loop over an encoded block yields exactly
the records of the encoded lines, in order, consuming the whole script. -/
theorem records_loop_encode : ∀ (ws : List DSLine) (bcc : Nat), (∀ w ∈ ws, w.valid) →
    records_loop .boundary
      ((ws.map (fun w => w.bytes.map some ++ [some 13, some 10])).flatten ++
        [some 33, some 13, some 10, some 3, some bcc]) = .ok (ws.map DSLine.record) [] := by
  intro ws
  induction ws with
  | nil =>
    intro bcc _
    simp [records_loop, read_trailer, chanRead]
  | cons w ws ih =>
    intro bcc hv
    have hwv := hv w (by simp)
    obtain ⟨hd, tl, hcons⟩ := dsline_bytes_cons w
    have hhd33 : ¬ (hd = 33) := (dsline_bytes_ne w hwv hd (by rw [hcons]; simp)).2
    have htl13 : ∀ x ∈ tl, x ≠ 13 := fun x hx =>
      (dsline_bytes_ne w hwv x (by rw [hcons]; simp [hx])).1
    have hstream : ((w :: ws).map (fun w => w.bytes.map some ++ [some 13, some 10])).flatten ++
        [some 33, some 13, some 10, some 3, some bcc] =
        some hd :: (tl.map some ++ (some 13 :: some 10 ::
          ((ws.map (fun w => w.bytes.map some ++ [some 13, some 10])).flatten ++
            [some 33, some 13, some 10, some 3, some bcc]))) := by
      rw [List.map_cons, List.flatten_cons, hcons]
      simp
    rw [hstream]
    have hstep : records_loop .boundary (some hd :: (tl.map some ++ (some 13 :: some 10 ::
        ((ws.map (fun w => w.bytes.map some ++ [some 13, some 10])).flatten ++
          [some 33, some 13, some 10, some 3, some bcc])))) =
        records_loop (.inLine [hd] 0) (tl.map some ++ (some 13 :: some 10 ::
        ((ws.map (fun w => w.bytes.map some ++ [some 13, some 10])).flatten ++
          [some 33, some 13, some 10, some 3, some bcc]))) := by
      simp [records_loop, hhd33]
    rw [hstep, records_loop_inLine]
    rw [read_dataline_aux_clean tl htl13 [hd], read_dataline_aux_eom]
    have hparse : read_dataset_structure ([hd] ++ tl) = .ok w.record := by
      rw [show ([hd] ++ tl : List Nat) = w.bytes by rw [hcons]; rfl]
      exact read_dataset_structure_wf w hwv
    rw [hparse]
    rw [ih bcc (fun x hx => hv x (by simp [hx]))]
    rfl

/-- C1 as amended: for every synthetic data block encoded from well-formed
dataset lines (well-formed further requiring an odd-length fractional part
and a unit not starting with a digit — see the counterexample), feeding the
block through the Data Block Reader and the Dataset Parser yields exactly
one record per line, in the original order, with each value the exact
rational denoted by the decimal text, for any BCC byte. -/
theorem claim1_roundtrip (ws : List DSLine) (bcc : Nat) (hv : ∀ w ∈ ws, w.valid) :
    read_records (encodeBlock (ws.map DSLine.bytes) bcc) = .ok (ws.map DSLine.record) [] := by
  have h := records_loop_encode ws bcc hv
  unfold encodeBlock
  show (if (2 : Nat) ≠ 2 then ReadOut.err .invalidMessage
        else records_loop .boundary
          (((ws.map DSLine.bytes).map (fun l => l.map some ++ [some 13, some 10])).flatten ++
            [some 33, some 13, some 10, some 3, some bcc])) = .ok (ws.map DSLine.record) []
  rw [if_neg (by omega), List.map_map]
  have hcomp : ((fun l : List Nat => l.map some ++ [some 13, some 10]) ∘ DSLine.bytes) =
      (fun w : DSLine => w.bytes.map some ++ [some 13, some 10]) := rfl
  rw [hcomp]
  exact h

/-- Witness for C1: the one-line block `1.8.0(0015.557*kWh)` round-trips
to a single record whose value is exactly 15557/1000. -/
theorem claim1_witness :
    (∀ w ∈ [(⟨[49, 46, 56, 46, 48], [48, 48, 49, 53], [53, 53, 55],
        some [107, 87, 104]⟩ : DSLine)], w.valid) ∧
    read_records (encodeBlock ([(⟨[49, 46, 56, 46, 48], [48, 48, 49, 53], [53, 53, 55],
        some [107, 87, 104]⟩ : DSLine)].map DSLine.bytes) 7) =
      .ok [⟨[49, 46, 56, 46, 48], (15557 : ℚ) / 1000, some [107, 87, 104]⟩] [] := by
  refine ⟨by decide, ?_⟩
  rw [claim1_roundtrip _ 7 (by decide)]
  simp only [List.map_cons, List.map_nil, DSLine.record]
  norm_num [digitsVal, List.foldl]

/-- C1 counterexample: the line `A(12.34)` is a well-formed dataset line in
the claim's sense (decimal value with two fractional digits), but the Value
group `\d+(.\d)+` consumes two bytes per iteration after the integer part,
so a decimal with an even-length fractional part cannot match; the pipeline
raises (Python 2 `TypeError` from the error-path concatenation) instead of
yielding one record. -/
theorem claim1_counterexample :
    read_records (encodeBlock [strBytes "A(12.34)"] 0) = .err .typeError := by decide

end IEC62056
